import Mathlib

/-!
Verification development for the `wikidump` Go package (files `wikidump.go`
and `utils.go`).  The Go code is shallowly embedded: machine effects
(filesystem, HTTP, subprocess) are modelled by explicit oracles and effect
traces, Go `error` values become `Option GoErr`, and the iterator closure of
`Open` becomes an explicit state machine.
-/

/-- GoErr models a non-nil Go `error` value: `errNew` is `errors.New` /
`errors.Errorf`, `wrap` is `errors.Wrap` with a non-nil inner error, `eof` is
the `io.EOF` sentinel and `ctxCanceled` models `context.Canceled`. -/
inductive GoErr where
  | errNew (msg : String)
  | wrap (inner : GoErr) (msg : String)
  | eof
  | ctxCanceled
deriving DecidableEq, Repr

/-- Eff is one observable filesystem effect: closing a handle or removing a
file. -/
inductive Eff where
  | close (what : String)
  | remove (file : String)
deriving DecidableEq, Repr

/-- CloseAct is the shape of a composed `Close` function: a primitive close
with its fixed result, or the Go pattern
`err1 := a(); err0 := b(); if err1 != nil { return err1 }; return err0`
(both actions always run; the first error wins). -/
inductive CloseAct where
  | prim (eff : Eff) (err : Option GoErr)
  | seqFirstErr (a b : CloseAct)
deriving DecidableEq, Repr

/-- firstErr is the Go idiom `if err1 != nil { return err1 }; return err0`. -/
def firstErr (err1 err0 : Option GoErr) : Option GoErr :=
  match err1 with
  | some e => some e
  | none => err0

/-- runClose interprets a CloseAct, returning the error the `Close` call
returns and the ordered list of effects it performs. -/
def runClose : CloseAct → Option GoErr × List Eff
  | .prim eff err => (err, [eff])
  | .seqFirstErr a b =>
    let r1 := runClose a
    let r0 := runClose b
    (firstErr r1.1 r0.1, r1.2 ++ r0.2)

/-- fileInfo embeds the Go struct `fileInfo { URL, SHA1 string }`. -/
structure fileInfo where
  URL : String
  SHA1 : String
deriving DecidableEq, Repr

/-- Wikidump embeds the Go struct `Wikidump`; the `map[string][]fileInfo` is
an association list and the `time.Time` date an abstract tag. -/
structure Wikidump where
  file2Info : List (String × List fileInfo)
  tmpDir : String
  date : Nat
deriving DecidableEq, Repr

/-- mapGet models reading a Go map: `some v` when the key is present. -/
def mapGet (m : List (String × List fileInfo)) (k : String) : Option (List fileInfo) :=
  match m with
  | [] => none
  | (k', v) :: rest => if k' = k then some v else mapGet rest k

/-- CheckFor embeds `Wikidump.CheckFor`: it walks the filenames in argument
order and returns `errors.New(filename + " not found")` at the first name
missing from `file2Info`, `none` (nil) when all are present. -/
def CheckFor (w : Wikidump) (filenames : List String) : Option GoErr :=
  match filenames with
  | [] => none
  | f :: rest =>
    if (mapGet w.file2Info f).isSome then CheckFor w rest
    else some (.errNew (f ++ " not found"))

/-- CheckForS is CheckFor with the value receiver threaded explicitly, to
state that the method never modifies the hub. -/
def CheckForS (w : Wikidump) (filenames : List String) : Option GoErr × Wikidump :=
  match filenames with
  | [] => (none, w)
  | f :: rest =>
    if (mapGet w.file2Info f).isSome then CheckForS w rest
    else (some (.errNew (f ++ " not found")), w)

/-- RCKind records what an `io.ReadCloser` value is, as far as the type
assertions in `filename` can observe: a `readClose` wrapping an `*os.File`
(with its path), a `readClose` wrapping some other reader, or a value that is
not a `readClose` at all. -/
inductive RCKind where
  | file (name : String)
  | wrapped
  | raw
deriving DecidableEq, Repr

/-- RC models an `io.ReadCloser`: its observable kind plus its composed
`Close` behaviour. -/
structure RC where
  kind : RCKind
  close : CloseAct
deriving DecidableEq, Repr

/-- Modelled from the spec: the `virtualFile` struct used by `store` and
`open` in `wikidump.go` is not among the given source files.  Per the spec a
SpooledFile is an owned closeable handle for a fully downloaded file (here:
its path and byte content) plus a release action that closes the handle and
deletes the file. -/
structure virtualFile where
  name : String
  content : List Nat
  fclose : CloseAct
deriving DecidableEq, Repr

/-- virtualFile.toRC views a spool handle as an `io.ReadCloser`: a
`readClose` wrapping the reopened `*os.File`, whose `Close` is the release
action. -/
def virtualFile.toRC (vf : virtualFile) : RC :=
  { kind := .file vf.name, close := vf.fclose }

/-- StoreResult is the outcome of `store` as observed by its caller: a
returned spool file, a returned non-nil error, or a Go runtime panic. -/
inductive StoreResult where
  | ok (vf : virtualFile)
  | err (e : GoErr)
  | panicked (msg : String)
deriving DecidableEq, Repr

/-- StoreOutcome pairs the result of one `store` call with the filesystem
effects the call performed and whether the temporary file was created. -/
structure StoreOutcome where
  result : StoreResult
  effects : List Eff
  tmpCreated : Bool

/-- StoreEnv fixes the behaviour of the machine during one `store` call:
the `ioutil.TempFile` outcome, the `stream` (HTTP) outcome, the `io.Copy`
outcome, the outcomes of the close/reopen calls on the success path, the
outcomes of the two calls inside `fclose`, and the hex-encoded SHA-1
function (abstracted, as `crypto/sha1` is an external library). -/
structure StoreEnv where
  tmpDir : String
  tempFileName : Option String
  tempCreateErr : GoErr
  streamBody : Except GoErr (List Nat)
  copyErr : Option GoErr
  closeErr : Option GoErr
  reopenErr : Option GoErr
  fcloseCloseErr : Option GoErr
  fcloseRemoveErr : Option GoErr
  hashHex : List Nat → String

/-- store embeds `Wikidump.store` (wikidump.go lines 98-145).  It creates a
temporary file, streams the body into it while hashing exactly the written
bytes, compares the digest with `fi.SHA1`, closes and reopens the file, and
on every failure path runs `fclose` (close then remove) before returning the
error.  On the reopen-failure path the Go code first reassigns `tempFile` to
the nil handle returned by `os.Open` and then builds the error message with
`tempFile.Name()`, which dereferences the nil `*os.File`: that path panics
before `fclose` can run. -/
def store (env : StoreEnv) (fi : fileInfo) : StoreOutcome :=
  match env.tempFileName with
  | none =>
    { result := .err (.wrap env.tempCreateErr
        ("Error: unable to create temporary file in " ++ env.tmpDir)),
      effects := [], tmpCreated := false }
  | some name =>
    let fclose : CloseAct :=
      .seqFirstErr (.prim (.close name) env.fcloseCloseErr)
        (.prim (.remove name) env.fcloseRemoveErr)
    let fail : GoErr → StoreOutcome := fun e =>
      { result := .err e, effects := (runClose fclose).2, tmpCreated := true }
    match env.streamBody with
    | .error e => fail e
    | .ok body =>
      match env.copyErr with
      | some e => fail (.wrap e ("Error: unable to copy to file the following url: " ++ fi.URL))
      | none =>
        if env.hashHex body ≠ fi.SHA1 then
          fail (.errNew ("Error: mismatched SHA1 for the file downloaded from the following url: " ++ fi.URL))
        else
          match env.closeErr with
          | some e => fail (.wrap e ("Error: unable to close the following file: " ++ name))
          | none =>
            match env.reopenErr with
            | some _ =>
              { result := .panicked "runtime error: invalid memory address or nil pointer dereference",
                effects := [], tmpCreated := true }
            | none =>
              { result := .ok { name := name, content := body, fclose := fclose },
                effects := [], tmpCreated := true }

/-- hasSuffix embeds Go `strings.HasSuffix` on the character sequences of the
two strings. -/
def hasSuffix (s suffix : String) : Bool :=
  suffix.data.isSuffixOf s.data

/-- filename embeds `filename` (utils.go lines 73-84): two type assertions
recover the `*os.File` backing a spool handle; on success the file handle is
closed (its error discarded) and its path returned. -/
def filename (r : RC) : Except GoErr String × List Eff :=
  match r.kind with
  | .file n => (.ok n, [.close n])
  | .wrapped => (.error (.errNew "Unable to cast to *os.File"), [])
  | .raw => (.error (.errNew "Unable to cast to readClose"), [])

/-- GzEnv fixes the behaviour of the gzip library during one `unGZip` call:
the `gzip.NewReader` outcome and the error the decoder `Close` will return. -/
structure GzEnv where
  newReaderErr : Option GoErr
  roCloseErr : Option GoErr

/-- unGZip embeds `unGZip` (utils.go lines 16-30): on a `gzip.NewReader`
error the input is closed and the error returned; on success the result is a
`readClose` whose `Close` runs the decoder close then the input close,
returning the first non-nil error. -/
def unGZip (env : GzEnv) (ri : RC) : Except GoErr RC × List Eff :=
  match env.newReaderErr with
  | some e => (.error e, (runClose ri.close).2)
  | none =>
    (.ok { kind := .wrapped,
           close := .seqFirstErr (.prim (.close "gzip reader") env.roCloseErr) ri.close }, [])

/-- unBZip2 embeds `unBZip2` (utils.go lines 32-34): the bzip2 decoder never
fails to construct and the returned `Close` is exactly the input close. -/
def unBZip2 (ri : RC) : Except GoErr RC × List Eff :=
  (.ok { kind := .wrapped, close := ri.close }, [])

/-- SevenZEnv fixes the behaviour of the external 7z machinery during one
`un7Zip` call: the `lzmadec.NewArchive` outcome (entry paths or error), the
`GetFileReader` outcome, and the error `os.Remove` will return on close. -/
structure SevenZEnv where
  entries : Except GoErr (List String)
  getReaderErr : Option GoErr
  removeErr : Option GoErr

/-- un7Zip embeds `un7Zip` (utils.go lines 36-71): recover the backing path
via `filename`, list the archive, require exactly one entry, open a reader
for it; every failure closes the input; the success close runs the input
close then removes the spool file, returning the first non-nil error.  The
human-readable meaning prefix `lzmadecErr2Meaning` produces inside the two
wrapped messages is abstracted away. -/
def un7Zip (env : SevenZEnv) (ri : RC) : Except GoErr RC × List Eff :=
  let failEffs := (runClose ri.close).2
  match filename ri with
  | (.error e, effs) => (.error e, effs ++ failEffs)
  | (.ok fname, effs) =>
    match env.entries with
    | .error e => (.error (.wrap e ("while listing content of file " ++ fname)), effs ++ failEffs)
    | .ok es =>
      if es.length ≠ 1 then
        (.error (.errNew ("Error entries count differs from one - " ++ toString es.length ++ " - for file " ++ fname)),
         effs ++ failEffs)
      else
        match env.getReaderErr with
        | some e => (.error (.wrap e ("while opening file " ++ fname)), effs ++ failEffs)
        | none =>
          (.ok { kind := .wrapped,
                 close := .seqFirstErr ri.close (.prim (.remove fname) env.removeErr) }, effs)

/-- RRes is the outcome of the `open` pipeline step: a readable stream, an
error, or a propagated panic from `store`. -/
inductive RRes where
  | ok (rc : RC)
  | err (e : GoErr)
  | panicked (msg : String)
deriving DecidableEq, Repr

/-- liftEx injects a decompressor outcome into RRes. -/
def liftEx : Except GoErr RC × List Eff → RRes × List Eff
  | (.ok rc, l) => (.ok rc, l)
  | (.error e, l) => (.err e, l)

/-- openR embeds `Wikidump.open` (wikidump.go lines 67-81) given the outcome
of `stubbornStore`: on success the decompressor is chosen by the URL suffix
(`.7z`, then `.bz2`, then `.gz`), otherwise the spool handle is returned
unchanged. -/
def openR (st : StoreResult) (env7 : SevenZEnv) (envGz : GzEnv) (fi : fileInfo) :
    RRes × List Eff :=
  match st with
  | .panicked m => (.panicked m, [])
  | .err e => (.err e, [])
  | .ok r =>
    if hasSuffix fi.URL ".7z" then liftEx (un7Zip env7 r.toRC)
    else if hasSuffix fi.URL ".bz2" then liftEx (unBZip2 r.toRC)
    else if hasSuffix fi.URL ".gz" then liftEx (unGZip envGz r.toRC)
    else (.ok r.toRC, [])

/-- second is Go `time.Second` in nanoseconds. -/
def second : Nat := 1000000000

/-- hour is Go `time.Hour` in nanoseconds. -/
def hour : Nat := 3600000000000

/-- StubbornOut is the outcome of one `stubbornStore` call together with how
many `store` calls it made and the list of backoff waits it slept out in
full (an interrupted wait is not recorded). -/
structure StubbornOut where
  result : StoreResult
  calls : Nat
  waits : List Nat
deriving Repr

/-- stubbornLoop embeds the loop of `Wikidump.stubbornStore` (wikidump.go
lines 83-96).  The Go loop variable is `t`, running over `second * 2 ^ k`
while `t < hour`; the loop body calls `store` (outcome given by the oracle
`attempt` for the k-th call), returns on success, and otherwise selects
between `ctx.Done()` (oracle `ctxDone`, in which case the wrapped context
error is returned at once) and the `time.After(t)` timer.  `last` carries
the named return values of the enclosing function, yielded when the guard
fails. -/
def stubbornLoop (attempt : Nat → StoreResult) (ctxDone : Nat → Bool) (ctxErr : GoErr)
    (k : Nat) (last : StoreResult) : StubbornOut :=
  if _h : second * 2 ^ k < hour then
    match attempt k with
    | .ok vf => { result := .ok vf, calls := 1, waits := [] }
    | .panicked m => { result := .panicked m, calls := 1, waits := [] }
    | .err e =>
      if ctxDone k then
        { result := .err (.wrap ctxErr "Error: change in context state"), calls := 1, waits := [] }
      else
        let rest := stubbornLoop attempt ctxDone ctxErr (k + 1) (.err e)
        { result := rest.result, calls := rest.calls + 1, waits := second * 2 ^ k :: rest.waits }
  else
    { result := last, calls := 0, waits := [] }
termination_by 12 - k
decreasing_by
  have hk : k < 12 := by
    by_contra hk
    push_neg at hk
    have h12 : (2 : Nat) ^ 12 ≤ 2 ^ k := Nat.pow_le_pow_right (by norm_num) hk
    have hmul : second * 2 ^ 12 ≤ second * 2 ^ k := Nat.mul_le_mul_left _ h12
    have hlt : second * 2 ^ 12 < hour := lt_of_le_of_lt hmul _h
    simp [second, hour] at hlt
  omega

/-- virtualFileZero is the zero value of `virtualFile`, the initial value of
the named return `r`. -/
def virtualFileZero : virtualFile :=
  { name := "", content := [], fclose := .prim (.close "") none }

/-- stubbornStore embeds `Wikidump.stubbornStore`: the loop starts at
`t = time.Second` (k = 0) with zero-valued named returns. -/
def stubbornStore (attempt : Nat → StoreResult) (ctxDone : Nat → Bool) (ctxErr : GoErr) :
    StubbornOut :=
  stubbornLoop attempt ctxDone ctxErr 0 (.ok virtualFileZero)

/-- StoreResult.isErr is true exactly on returned non-nil errors. -/
def StoreResult.isErr : StoreResult → Bool
  | .err _ => true
  | _ => false

/-- IterState is the captured state of the closure returned by
`Wikidump.Open`: the remaining descriptor slice `ffi` and the captured error
variable `err` (none models nil). -/
structure IterState where
  ffi : List fileInfo
  err : Option GoErr
deriving DecidableEq, Repr

/-- iterInit embeds the construction in `Open` (wikidump.go line 51): the
descriptor list is the map read (nil slice for a missing key) and `err` the
result of `CheckFor(filename)`. -/
def iterInit (w : Wikidump) (filename : String) : IterState :=
  { ffi := (mapGet w.file2Info filename).getD [], err := CheckFor w [filename] }

/-- iterNext embeds one call of the closure returned by `Open` (wikidump.go
lines 52-64).  The oracle gives the outcome of `w.open` for the popped
descriptor; the Bool records whether a fetch was attempted on this call. -/
def iterNext (oracle : fileInfo → Except GoErr RC) (s : IterState) :
    Except GoErr RC × IterState × Bool :=
  match s.err with
  | some e => (.error e, s, false)
  | none =>
    match s.ffi with
    | [] => (.error .eof, { s with err := some .eof }, false)
    | fi :: rest =>
      match oracle fi with
      | .ok r => (.ok r, { ffi := rest, err := none }, true)
      | .error e => (.error e, { ffi := rest, err := some e }, true)

/-- iterRun is the iterator state after n calls. -/
def iterRun (oracle : fileInfo → Except GoErr RC) (s : IterState) : Nat → IterState
  | 0 => s
  | n + 1 => (iterNext oracle (iterRun oracle s n)).2.1

/-- fiC1 is a concrete descriptor whose expected digest does not match the
digest of the served bytes. -/
def fiC1 : fileInfo :=
  { URL := "https://dumps.wikimedia.org/enwiki/pages.xml.gz", SHA1 := "bb" }

/-- envC1 is a concrete machine behaviour in which download and copy succeed
but the computed digest is "aa". -/
def envC1 : StoreEnv :=
  { tmpDir := "/tmp", tempFileName := some "/tmp/pages.xml.gz123",
    tempCreateErr := .errNew "", streamBody := .ok [7],
    copyErr := none, closeErr := none, reopenErr := none,
    fcloseCloseErr := none, fcloseRemoveErr := none,
    hashHex := fun _ => "aa" }

/-- fiC2 is a concrete descriptor whose download and verification succeed. -/
def fiC2 : fileInfo :=
  { URL := "https://dumps.wikimedia.org/enwiki/pages.xml.gz", SHA1 := "d1" }

/-- envC2 is a concrete machine behaviour in which everything succeeds up to
the read-only reopen, which fails (for example because the process hit its
open-file limit). -/
def envC2 : StoreEnv :=
  { tmpDir := "/tmp", tempFileName := some "/tmp/pages.xml.gz123",
    tempCreateErr := .errNew "", streamBody := .ok [104, 105],
    copyErr := none, closeErr := none,
    reopenErr := some (.errNew "open /tmp/pages.xml.gz123: too many open files"),
    fcloseCloseErr := none, fcloseRemoveErr := none,
    hashHex := fun _ => "d1" }

theorem CheckForS_eq (w : Wikidump) (fs : List String) :
    CheckForS w fs = (CheckFor w fs, w) := by
  induction fs with
  | nil => rfl
  | cons f rest ih =>
    by_cases hf : (mapGet w.file2Info f).isSome
    · simp [CheckForS, CheckFor, hf, ih]
    · simp [CheckForS, CheckFor, hf]

/-- C10: CheckFor returns nil exactly when every argument filename is a key
of the catalog; otherwise it returns an error naming the first filename, in
argument order, that is absent; and it never modifies the hub. -/
theorem CheckFor_spec (w : Wikidump) (fs : List String) :
    (CheckFor w fs = none ↔ ∀ f ∈ fs, (mapGet w.file2Info f).isSome) ∧
    (∀ f, fs.find? (fun g => (mapGet w.file2Info g).isNone) = some f →
      CheckFor w fs = some (.errNew (f ++ " not found"))) ∧
    CheckForS w fs = (CheckFor w fs, w) := by
  refine ⟨?_, ?_, CheckForS_eq w fs⟩
  · induction fs with
    | nil => simp [CheckFor]
    | cons f rest ih =>
      by_cases hf : (mapGet w.file2Info f).isSome
      · simp [CheckFor, hf, ih]
      · simp [CheckFor, hf]
  · induction fs with
    | nil => intro f hf; simp at hf
    | cons g rest ih =>
      intro f hf
      by_cases hg : (mapGet w.file2Info g).isSome
      · rw [List.find?_cons_of_neg] at hf
        · simpa [CheckFor, hg] using ih f hf
        · simp only [Option.isNone_iff_eq_none]
          intro hc
          rw [hc] at hg
          simp at hg
      · rw [List.find?_cons_of_pos] at hf
        · cases hf
          simp [CheckFor, hg]
        · simp only [Option.isNone_iff_eq_none]
          exact Option.not_isSome_iff_eq_none.mp hg

theorem CheckFor_spec_witness :
    CheckFor ⟨[("a", [])], "/tmp", 0⟩ ["b"] = some (.errNew ("b" ++ " not found")) :=
  (CheckFor_spec ⟨[("a", [])], "/tmp", 0⟩ ["b"]).2.1 "b" (by decide)

theorem iterNext_of_err (oracle : fileInfo → Except GoErr RC) (s : IterState) (e : GoErr)
    (h : s.err = some e) : iterNext oracle s = (.error e, s, false) := by
  simp [iterNext, h]

theorem iterNext_fst_err (oracle : fileInfo → Except GoErr RC) (s : IterState) (e : GoErr)
    (h : (iterNext oracle s).1 = .error e) : (iterNext oracle s).2.1.err = some e := by
  cases hs : s.err with
  | some e' =>
    rw [iterNext_of_err oracle s e' hs] at h
    simp at h
    rw [iterNext_of_err oracle s e' hs]
    show s.err = some e
    rw [hs, h]
  | none =>
    cases hf : s.ffi with
    | nil =>
      simp [iterNext, hs, hf] at h ⊢
      exact h
    | cons fi rest =>
      cases ho : oracle fi with
      | ok r => simp [iterNext, hs, hf, ho] at h
      | error e' =>
        simp [iterNext, hs, hf, ho] at h ⊢
        exact h

theorem iterRun_of_err (oracle : fileInfo → Except GoErr RC) (s : IterState) (e : GoErr)
    (h : s.err = some e) : ∀ n, iterRun oracle s n = s := by
  intro n
  induction n with
  | zero => rfl
  | succ n ih => rw [iterRun, ih, iterNext_of_err oracle s e h]

theorem iterRun_shift (oracle : fileInfo → Except GoErr RC) (s : IterState) :
    ∀ n, iterRun oracle s (n + 1) = iterRun oracle (iterNext oracle s).2.1 n := by
  intro n
  induction n with
  | zero => rfl
  | succ n ih =>
    have hx : iterRun oracle s (n + 1 + 1) = (iterNext oracle (iterRun oracle s (n + 1))).2.1 := rfl
    rw [hx, ih]
    rfl

theorem iterRun_add (oracle : fileInfo → Except GoErr RC) (s : IterState) (a : Nat) :
    ∀ m, iterRun oracle s (a + m) = iterRun oracle (iterRun oracle s a) m := by
  intro m
  induction m with
  | zero => rfl
  | succ m ih =>
    have hx : a + (m + 1) = (a + m) + 1 := rfl
    rw [hx, iterRun, ih]
    rfl

/-- C4: once a call of the iterator returns an error, every later call
returns that identical error with the state unchanged and without attempting
any fetch; an iterator for a filename absent from the catalog returns the
captured not-found error on every call, including the first. -/
theorem open_sticky_failure (oracle : fileInfo → Except GoErr RC) (s : IterState) (e : GoErr)
    (h : (iterNext oracle s).1 = .error e) :
    (∀ n, 1 ≤ n →
      iterNext oracle (iterRun oracle s n) = (.error e, iterRun oracle s n, false)) ∧
    (∀ (w : Wikidump) (f : String), mapGet w.file2Info f = none →
      ∀ n, iterNext oracle (iterRun oracle (iterInit w f) n) =
        (.error (.errNew (f ++ " not found")), iterRun oracle (iterInit w f) n, false)) := by
  constructor
  · intro n hn
    obtain ⟨m, rfl⟩ : ∃ m, n = m + 1 := ⟨n - 1, by omega⟩
    have hs1 : (iterNext oracle s).2.1.err = some e := iterNext_fst_err oracle s e h
    rw [iterRun_shift, iterRun_of_err oracle _ e hs1]
    exact iterNext_of_err oracle _ e hs1
  · intro w f hf n
    have hinit : (iterInit w f).err = some (.errNew (f ++ " not found")) := by
      simp [iterInit, CheckFor, hf]
    rw [iterRun_of_err oracle _ _ hinit]
    exact iterNext_of_err oracle _ _ hinit

theorem open_sticky_failure_witness :
    iterNext (fun _ => .error (.errNew "boom"))
        (iterRun (fun _ => .error (.errNew "boom")) ⟨[⟨"u", "s"⟩], none⟩ 1) =
      (.error (.errNew "boom"),
       iterRun (fun _ => .error (.errNew "boom")) ⟨[⟨"u", "s"⟩], none⟩ 1, false) :=
  (open_sticky_failure (fun _ => .error (.errNew "boom")) ⟨[⟨"u", "s"⟩], none⟩
    (.errNew "boom") rfl).1 1 (by omega)

theorem iterNext_empty_none (oracle : fileInfo → Except GoErr RC) :
    ∀ n, (iterNext oracle (iterRun oracle ⟨[], none⟩ n)).1 = .error .eof := by
  intro n
  cases n with
  | zero => rfl
  | succ m =>
    have hs1 : (iterNext oracle (⟨[], none⟩ : IterState)).2.1.err = some .eof := rfl
    rw [iterRun_shift, iterRun_of_err oracle _ _ hs1, iterNext_of_err oracle _ _ hs1]

theorem iterRun_drop (oracle : fileInfo → Except GoErr RC)
    (hok : ∀ fi, ∃ r, oracle fi = .ok r) :
    ∀ (n : Nat) (l : List fileInfo), n ≤ l.length →
      iterRun oracle ⟨l, none⟩ n = ⟨l.drop n, none⟩ := by
  intro n
  induction n with
  | zero => intro l _; simp [iterRun]
  | succ m ih =>
    intro l hlen
    have hm : m < l.length := by omega
    have hdrop : l.drop m = l[m] :: l.drop (m + 1) := List.drop_eq_getElem_cons hm
    obtain ⟨r, hr⟩ := hok l[m]
    rw [iterRun, ih l (by omega), hdrop]
    simp [iterNext, hr]

/-- C8: an iterator over a name mapped to zero resources returns io.EOF on
the first call and every later call; likewise once a non-empty descriptor
sequence has been fully consumed, every further call returns io.EOF. -/
theorem open_eof_behaviour (w : Wikidump) (f : String) (oracle : fileInfo → Except GoErr RC) :
    (mapGet w.file2Info f = some [] →
      ∀ n, (iterNext oracle (iterRun oracle (iterInit w f) n)).1 = .error .eof) ∧
    (∀ l, mapGet w.file2Info f = some l → (∀ fi, ∃ r, oracle fi = .ok r) →
      ∀ n, l.length ≤ n →
        (iterNext oracle (iterRun oracle (iterInit w f) n)).1 = .error .eof) := by
  constructor
  · intro hf n
    have hinit : iterInit w f = ⟨[], none⟩ := by simp [iterInit, CheckFor, hf]
    rw [hinit]
    exact iterNext_empty_none oracle n
  · intro l hf hok n hn
    have hinit : iterInit w f = ⟨l, none⟩ := by simp [iterInit, CheckFor, hf]
    obtain ⟨m, rfl⟩ : ∃ m, n = l.length + m := ⟨n - l.length, by omega⟩
    rw [hinit, iterRun_add, iterRun_drop oracle hok l.length l le_rfl, List.drop_length]
    exact iterNext_empty_none oracle m

theorem open_eof_behaviour_witness :
    (iterNext (fun _ => .error .eof)
      (iterRun (fun _ => .error .eof) (iterInit ⟨[("a", [])], "/tmp", 0⟩ "a") 0)).1 =
    .error .eof :=
  (open_eof_behaviour ⟨[("a", [])], "/tmp", 0⟩ "a" (fun _ => .error .eof)).1 rfl 0

theorem stubborn_guard_lt (k : Nat) (h : second * 2 ^ k < hour) : k < 12 := by
  by_contra hk
  push_neg at hk
  have h12 : (2 : Nat) ^ 12 ≤ 2 ^ k := Nat.pow_le_pow_right (by norm_num) hk
  have hmul : second * 2 ^ 12 ≤ second * 2 ^ k := Nat.mul_le_mul_left _ h12
  have hlt : second * 2 ^ 12 < hour := lt_of_le_of_lt hmul h
  simp [second, hour] at hlt

theorem stubborn_guard_of_lt (k : Nat) (h : k < 12) : second * 2 ^ k < hour := by
  have h11 : (2 : Nat) ^ k ≤ 2 ^ 11 := Nat.pow_le_pow_right (by norm_num) (by omega)
  have hmul : second * 2 ^ k ≤ second * 2 ^ 11 := Nat.mul_le_mul_left _ h11
  have hlast : second * 2 ^ 11 < hour := by simp [second, hour]
  omega

theorem stubbornLoop_stop (a : Nat → StoreResult) (c : Nat → Bool) (e : GoErr)
    (k : Nat) (last : StoreResult) (h : ¬ second * 2 ^ k < hour) :
    stubbornLoop a c e k last = { result := last, calls := 0, waits := [] } := by
  rw [stubbornLoop]
  simp [h]

theorem stubbornLoop_ok (a : Nat → StoreResult) (c : Nat → Bool) (e : GoErr)
    (k : Nat) (last : StoreResult) (vf : virtualFile)
    (h : second * 2 ^ k < hour) (ha : a k = .ok vf) :
    stubbornLoop a c e k last = { result := .ok vf, calls := 1, waits := [] } := by
  rw [stubbornLoop]
  simp [h, ha]

theorem stubbornLoop_err_done (a : Nat → StoreResult) (c : Nat → Bool) (e : GoErr)
    (k : Nat) (last : StoreResult) (e' : GoErr)
    (h : second * 2 ^ k < hour) (ha : a k = .err e') (hc : c k = true) :
    stubbornLoop a c e k last =
      { result := .err (.wrap e "Error: change in context state"), calls := 1, waits := [] } := by
  rw [stubbornLoop]
  simp [h, ha, hc]

theorem stubbornLoop_err_cont (a : Nat → StoreResult) (c : Nat → Bool) (e : GoErr)
    (k : Nat) (last : StoreResult) (e' : GoErr)
    (h : second * 2 ^ k < hour) (ha : a k = .err e') (hc : c k = false) :
    stubbornLoop a c e k last =
      { result := (stubbornLoop a c e (k + 1) (.err e')).result,
        calls := (stubbornLoop a c e (k + 1) (.err e')).calls + 1,
        waits := second * 2 ^ k :: (stubbornLoop a c e (k + 1) (.err e')).waits } := by
  rw [stubbornLoop]
  simp [h, ha, hc]

theorem stubbornLoop_panic (a : Nat → StoreResult) (c : Nat → Bool) (e : GoErr)
    (k : Nat) (last : StoreResult) (m : String)
    (h : second * 2 ^ k < hour) (ha : a k = .panicked m) :
    stubbornLoop a c e k last = { result := .panicked m, calls := 1, waits := [] } := by
  rw [stubbornLoop]
  simp [h, ha]

theorem stubbornLoop_calls_le (a : Nat → StoreResult) (c : Nat → Bool) (e : GoErr) :
    ∀ (n k : Nat) (last : StoreResult), 12 ≤ k + n →
      (stubbornLoop a c e k last).calls ≤ 12 - k := by
  intro n
  induction n with
  | zero =>
    intro k last hk
    have hg : ¬ second * 2 ^ k < hour := by
      intro hcon
      have := stubborn_guard_lt k hcon
      omega
    rw [stubbornLoop_stop a c e k last hg]
    exact Nat.zero_le _
  | succ n ih =>
    intro k last hk
    by_cases hg : second * 2 ^ k < hour
    · have hk12 := stubborn_guard_lt k hg
      cases ha : a k with
      | ok vf =>
        rw [stubbornLoop_ok a c e k last vf hg ha]
        show 1 ≤ 12 - k
        omega
      | panicked m =>
        rw [stubbornLoop_panic a c e k last m hg ha]
        show 1 ≤ 12 - k
        omega
      | err e' =>
        cases hc : c k with
        | true =>
          rw [stubbornLoop_err_done a c e k last e' hg ha hc]
          show 1 ≤ 12 - k
          omega
        | false =>
          rw [stubbornLoop_err_cont a c e k last e' hg ha hc]
          have hr := ih (k + 1) (.err e') (by omega)
          show (stubbornLoop a c e (k + 1) (.err e')).calls + 1 ≤ 12 - k
          omega
    · rw [stubbornLoop_stop a c e k last hg]
      exact Nat.zero_le _

theorem stubbornLoop_waits (a : Nat → StoreResult) (c : Nat → Bool) (e : GoErr) :
    ∀ (n k : Nat) (last : StoreResult), 12 ≤ k + n →
      ∀ i : Nat, i < (stubbornLoop a c e k last).waits.length →
        (stubbornLoop a c e k last).waits.get? i = some (second * 2 ^ (k + i)) := by
  intro n
  induction n with
  | zero =>
    intro k last hk i hi
    have hg : ¬ second * 2 ^ k < hour := by
      intro hcon
      have := stubborn_guard_lt k hcon
      omega
    rw [stubbornLoop_stop a c e k last hg] at hi
    simp at hi
  | succ n ih =>
    intro k last hk i hi
    by_cases hg : second * 2 ^ k < hour
    · cases ha : a k with
      | ok vf =>
        rw [stubbornLoop_ok a c e k last vf hg ha] at hi
        simp at hi
      | panicked m =>
        rw [stubbornLoop_panic a c e k last m hg ha] at hi
        simp at hi
      | err e' =>
        cases hc : c k with
        | true =>
          rw [stubbornLoop_err_done a c e k last e' hg ha hc] at hi
          simp at hi
        | false =>
          rw [stubbornLoop_err_cont a c e k last e' hg ha hc] at hi ⊢
          cases i with
          | zero => simp
          | succ i =>
            have hi' : i < (stubbornLoop a c e (k + 1) (.err e')).waits.length := by
              simpa using hi
            have hr := ih (k + 1) (.err e') (by omega) i hi'
            have hexp : k + 1 + i = k + (i + 1) := by omega
            rw [hexp] at hr
            simpa using hr
    · rw [stubbornLoop_stop a c e k last hg] at hi
      simp at hi

theorem stubbornLoop_all_fail (a : Nat → StoreResult) (c : Nat → Bool) (e : GoErr)
    (hfail : ∀ j, j < 12 → (a j).isErr = true) (hc : ∀ j, c j = false) :
    ∀ (n k : Nat) (last : StoreResult), k + n = 12 → k < 12 →
      (stubbornLoop a c e k last).result = a 11 ∧
      (stubbornLoop a c e k last).calls = 12 - k := by
  intro n
  induction n with
  | zero =>
    intro k last hk hlt
    omega
  | succ n ih =>
    intro k last hk hlt
    have hg := stubborn_guard_of_lt k hlt
    have hak := hfail k hlt
    cases hae : a k with
    | ok vf =>
      rw [hae] at hak
      simp [StoreResult.isErr] at hak
    | panicked m =>
      rw [hae] at hak
      simp [StoreResult.isErr] at hak
    | err e' =>
      rw [stubbornLoop_err_cont a c e k last e' hg hae (hc k)]
      by_cases hk1 : k + 1 < 12
      · have hr := ih (k + 1) (.err e') (by omega) hk1
        refine ⟨hr.1, ?_⟩
        show (stubbornLoop a c e (k + 1) (.err e')).calls + 1 = 12 - k
        rw [hr.2]
        omega
      · have hk11 : k = 11 := by omega
        have hg1 : ¬ second * 2 ^ (k + 1) < hour := by
          intro hcon
          have := stubborn_guard_lt _ hcon
          omega
        rw [stubbornLoop_stop a c e (k + 1) (.err e') hg1]
        subst hk11
        exact ⟨hae.symm, rfl⟩

theorem stubbornLoop_cancel (a : Nat → StoreResult) (c : Nat → Bool) (e : GoErr)
    (j : Nat) (hj : j < 12)
    (hfail : ∀ k, k ≤ j → (a k).isErr = true)
    (hbefore : ∀ k, k < j → c k = false)
    (hdone : c j = true) :
    ∀ (n k : Nat) (last : StoreResult), k + n = j + 1 → k ≤ j →
      (stubbornLoop a c e k last).result = .err (.wrap e "Error: change in context state") ∧
      (stubbornLoop a c e k last).calls = j + 1 - k ∧
      (stubbornLoop a c e k last).waits.length = j - k := by
  intro n
  induction n with
  | zero =>
    intro k last hk hle
    omega
  | succ n ih =>
    intro k last hk hle
    have hg := stubborn_guard_of_lt k (by omega)
    have hak := hfail k hle
    cases hae : a k with
    | ok vf =>
      rw [hae] at hak
      simp [StoreResult.isErr] at hak
    | panicked m =>
      rw [hae] at hak
      simp [StoreResult.isErr] at hak
    | err e' =>
      by_cases hkj : k = j
      · subst hkj
        rw [stubbornLoop_err_done a c e k last e' hg hae hdone]
        refine ⟨rfl, ?_, ?_⟩
        · show 1 = k + 1 - k
          omega
        · show ([] : List Nat).length = k - k
          simp
      · have hkj' : k < j := by omega
        rw [stubbornLoop_err_cont a c e k last e' hg hae (hbefore k hkj')]
        have hr := ih (k + 1) (.err e') (by omega) (by omega)
        refine ⟨hr.1, ?_, ?_⟩
        · show (stubbornLoop a c e (k + 1) (.err e')).calls + 1 = j + 1 - k
          rw [hr.2.1]
          omega
        · show (second * 2 ^ k :: (stubbornLoop a c e (k + 1) (.err e')).waits).length = j - k
          simp only [List.length_cons]
          rw [hr.2.2]
          omega

/-- C3: for every attempt and context behaviour, stubbornStore makes at most
12 store calls; its backoff waits start at one second and double each
attempt (the i-th completed wait is second * 2 ^ i), the loop stopping once
the wait would reach one hour; and when every attempt fails while the
context stays live, the error of the last (12th) attempt is returned. -/
theorem stubbornStore_termination (attempt : Nat → StoreResult) (ctxDone : Nat → Bool)
    (ctxErr : GoErr) :
    (stubbornStore attempt ctxDone ctxErr).calls ≤ 12 ∧
    (∀ i : Nat, i < (stubbornStore attempt ctxDone ctxErr).waits.length →
      (stubbornStore attempt ctxDone ctxErr).waits.get? i = some (second * 2 ^ i)) ∧
    ((∀ j, j < 12 → (attempt j).isErr = true) → (∀ j, ctxDone j = false) →
      (stubbornStore attempt ctxDone ctxErr).result = attempt 11 ∧
      (stubbornStore attempt ctxDone ctxErr).calls = 12) := by
  refine ⟨?_, ?_, ?_⟩
  · have h := stubbornLoop_calls_le attempt ctxDone ctxErr 12 0 (.ok virtualFileZero) (by omega)
    simpa [stubbornStore] using h
  · intro i hi
    have h := stubbornLoop_waits attempt ctxDone ctxErr 12 0 (.ok virtualFileZero) (by omega) i hi
    simpa [stubbornStore] using h
  · intro hfail hc
    have h := stubbornLoop_all_fail attempt ctxDone ctxErr hfail hc 12 0 (.ok virtualFileZero)
      (by omega) (by omega)
    simpa [stubbornStore] using h

theorem stubbornStore_termination_witness :
    (stubbornStore (fun _ => .err (.errNew "netfail")) (fun _ => false) .ctxCanceled).result =
      .err (.errNew "netfail") ∧
    (stubbornStore (fun _ => .err (.errNew "netfail")) (fun _ => false) .ctxCanceled).calls = 12 :=
  (stubbornStore_termination (fun _ => .err (.errNew "netfail")) (fun _ => false)
    .ctxCanceled).2.2 (fun _ _ => rfl) (fun _ => rfl)

/-- C7: if the context cancellation fires during the backoff wait that
follows the (j+1)-st failed attempt, stubbornStore returns at once with an
error wrapping the context error: no further store call is made and the
interrupted wait is not slept out (only j waits completed). -/
theorem stubbornStore_cancelled (attempt : Nat → StoreResult) (ctxDone : Nat → Bool)
    (ctxErr : GoErr) (j : Nat) (hj : j < 12)
    (hfail : ∀ k, k ≤ j → (attempt k).isErr = true)
    (hbefore : ∀ k, k < j → ctxDone k = false)
    (hdone : ctxDone j = true) :
    (stubbornStore attempt ctxDone ctxErr).result =
      .err (.wrap ctxErr "Error: change in context state") ∧
    (stubbornStore attempt ctxDone ctxErr).calls = j + 1 ∧
    (stubbornStore attempt ctxDone ctxErr).waits.length = j := by
  have h := stubbornLoop_cancel attempt ctxDone ctxErr j hj hfail hbefore hdone (j + 1) 0
    (.ok virtualFileZero) (by omega) (by omega)
  simpa [stubbornStore] using h

theorem stubbornStore_cancelled_witness :
    (stubbornStore (fun _ => .err (.errNew "netfail")) (fun k => decide (2 ≤ k))
        .ctxCanceled).result =
      .err (.wrap .ctxCanceled "Error: change in context state") ∧
    (stubbornStore (fun _ => .err (.errNew "netfail")) (fun k => decide (2 ≤ k))
        .ctxCanceled).calls = 3 ∧
    (stubbornStore (fun _ => .err (.errNew "netfail")) (fun k => decide (2 ≤ k))
        .ctxCanceled).waits.length = 2 :=
  stubbornStore_cancelled (fun _ => .err (.errNew "netfail")) (fun k => decide (2 ≤ k))
    .ctxCanceled 2 (by omega) (fun _ _ => rfl) (by decide) rfl

/-- C1: store hands back a readable spooled file only if the digest of the
complete downloaded byte stream equals the expected digest of the
descriptor; the digest is computed over exactly the bytes written to the
temporary file, which are the content of the returned spooled file; a
mismatch makes the attempt fail with the mismatch error. -/
theorem store_digest_verified (env : StoreEnv) (fi : fileInfo) :
    (∀ vf, (store env fi).result = .ok vf →
      env.streamBody = .ok vf.content ∧ env.hashHex vf.content = fi.SHA1) ∧
    (∀ name body, env.tempFileName = some name → env.streamBody = .ok body →
      env.copyErr = none → env.hashHex body ≠ fi.SHA1 →
      (store env fi).result = .err (.errNew
        ("Error: mismatched SHA1 for the file downloaded from the following url: " ++ fi.URL))) := by
  constructor
  · intro vf hvf
    cases htf : env.tempFileName with
    | none => simp [store, htf] at hvf
    | some name =>
      cases hsb : env.streamBody with
      | error e => simp [store, htf, hsb] at hvf
      | ok body =>
        cases hce : env.copyErr with
        | some e => simp [store, htf, hsb, hce] at hvf
        | none =>
          by_cases hh : env.hashHex body = fi.SHA1
          · cases hcl : env.closeErr with
            | some e => simp [store, htf, hsb, hce, hh, hcl] at hvf
            | none =>
              cases hro : env.reopenErr with
              | some e => simp [store, htf, hsb, hce, hh, hcl, hro] at hvf
              | none =>
                simp [store, htf, hsb, hce, hh, hcl, hro] at hvf
                subst hvf
                exact ⟨rfl, hh⟩
          · simp [store, htf, hsb, hce, hh] at hvf
  · intro name body htf hsb hce hh
    simp [store, htf, hsb, hce, hh]

theorem store_digest_verified_witness :
    (store envC1 fiC1).result = .err (.errNew
      ("Error: mismatched SHA1 for the file downloaded from the following url: " ++ fiC1.URL)) :=
  (store_digest_verified envC1 fiC1).2 "/tmp/pages.xml.gz123" [7] rfl rfl rfl (by decide)

/-- C2 fails on the code: on the read-only reopen failure path, store does
not close and remove the temporary file and return the reopen error, as the
claim and the spec require; instead it panics with a nil-pointer
dereference, because after `os.Open` fails the variable `tempFile` holds the
nil handle and the error message is built with `tempFile.Name()`.  The
failure-path cleanup never runs, so the fully written temporary file
survives on disk.  This theorem evaluates the embedded code at such a
failing input: the outcome is a panic, no close/remove effect is performed,
and the temporary file had been created. -/
theorem store_reopen_failure_panics :
    (store envC2 fiC2).result =
      .panicked "runtime error: invalid memory address or nil pointer dereference" ∧
    (store envC2 fiC2).effects = [] ∧
    (store envC2 fiC2).tmpCreated = true :=
  ⟨rfl, rfl, rfl⟩

theorem hasSuffix_suffix {u suf : String} (h : hasSuffix u suf = true) :
    suf.data <:+ u.data := by
  simpa [hasSuffix] using h

theorem suffix_rev_take {α : Type _} {a b u : List α}
    (ha : a <:+ u) (hb : b <:+ u) (hlen : a.length ≤ b.length) :
    a.reverse = b.reverse.take a.reverse.length := by
  have ha' := List.prefix_iff_eq_take.mp ha.reverse
  have hb' := List.prefix_iff_eq_take.mp hb.reverse
  rw [hb', List.take_take, Nat.min_eq_left (by simpa using hlen)]
  exact ha'

theorem hasSuffix_excl (u : String) :
    (hasSuffix u ".bz2" = true → hasSuffix u ".7z" = false) ∧
    (hasSuffix u ".gz" = true → hasSuffix u ".7z" = false) ∧
    (hasSuffix u ".gz" = true → hasSuffix u ".bz2" = false) := by
  refine ⟨?_, ?_, ?_⟩
  · intro h
    by_contra hc
    rw [Bool.not_eq_false] at hc
    have hcl := suffix_rev_take (hasSuffix_suffix hc) (hasSuffix_suffix h) (by decide)
    exact absurd hcl (by decide)
  · intro h
    by_contra hc
    rw [Bool.not_eq_false] at hc
    have hcl := suffix_rev_take (hasSuffix_suffix hc) (hasSuffix_suffix h) (by decide)
    exact absurd hcl (by decide)
  · intro h
    by_contra hc
    rw [Bool.not_eq_false] at hc
    have hcl := suffix_rev_take (hasSuffix_suffix h) (hasSuffix_suffix hc) (by decide)
    exact absurd hcl (by decide)

/-- C5: after a successful store, open selects the decompressor solely from
the URL suffix of the descriptor: a URL ending in `.7z` goes to un7Zip, one
ending in `.bz2` to unBZip2, one ending in `.gz` to unGZip, and with none of
these suffixes the spooled file is returned unchanged. -/
theorem open_suffix_dispatch (env7 : SevenZEnv) (envGz : GzEnv) (fi : fileInfo)
    (r : virtualFile) :
    (hasSuffix fi.URL ".7z" = true →
      openR (.ok r) env7 envGz fi = liftEx (un7Zip env7 r.toRC)) ∧
    (hasSuffix fi.URL ".bz2" = true →
      openR (.ok r) env7 envGz fi = liftEx (unBZip2 r.toRC)) ∧
    (hasSuffix fi.URL ".gz" = true →
      openR (.ok r) env7 envGz fi = liftEx (unGZip envGz r.toRC)) ∧
    (hasSuffix fi.URL ".7z" = false → hasSuffix fi.URL ".bz2" = false →
      hasSuffix fi.URL ".gz" = false →
      openR (.ok r) env7 envGz fi = (.ok r.toRC, [])) := by
  refine ⟨?_, ?_, ?_, ?_⟩
  · intro h7
    simp [openR, h7]
  · intro hb
    have h7 := (hasSuffix_excl fi.URL).1 hb
    simp [openR, h7, hb]
  · intro hg
    have h7 := (hasSuffix_excl fi.URL).2.1 hg
    have hb := (hasSuffix_excl fi.URL).2.2 hg
    simp [openR, h7, hb, hg]
  · intro h7 hb hg
    simp [openR, h7, hb, hg]

theorem open_suffix_dispatch_witness :
    openR (.ok ⟨"/tmp/a", [1], .prim (.close "/tmp/a") none⟩)
        ⟨.ok ["e"], none, none⟩ ⟨none, none⟩ ⟨"https://x/a.bz2", "s"⟩ =
      liftEx (unBZip2 (virtualFile.toRC ⟨"/tmp/a", [1], .prim (.close "/tmp/a") none⟩)) :=
  (open_suffix_dispatch ⟨.ok ["e"], none, none⟩ ⟨none, none⟩ ⟨"https://x/a.bz2", "s"⟩
    ⟨"/tmp/a", [1], .prim (.close "/tmp/a") none⟩).2.1 (by decide)

/-- C6: un7Zip recovers the backing file path from the spool handle and
closes that handle first; whenever the listed archive has an entry count
different from one it fails, after closing the input, with the count error;
and on success it returns a reader whose Close runs the spool handle close
and then deletes the spool file from disk, returning the first non-nil
error. -/
theorem un7Zip_spec (env : SevenZEnv) (ri : RC) (name : String)
    (hk : ri.kind = .file name) :
    (un7Zip env ri).2.head? = some (.close name) ∧
    (∀ es, env.entries = .ok es → es.length ≠ 1 →
      (un7Zip env ri).1 = .error (.errNew
        ("Error entries count differs from one - " ++ toString es.length ++ " - for file " ++ name)) ∧
      (un7Zip env ri).2 = .close name :: (runClose ri.close).2) ∧
    (∀ rc, (un7Zip env ri).1 = .ok rc →
      runClose rc.close =
        (firstErr (runClose ri.close).1 env.removeErr,
         (runClose ri.close).2 ++ [.remove name])) := by
  have hfn : filename ri = (.ok name, [.close name]) := by simp [filename, hk]
  refine ⟨?_, ?_, ?_⟩
  · cases hes : env.entries with
    | error e => simp [un7Zip, hfn, hes]
    | ok es =>
      by_cases hlen : es.length = 1
      · cases hgr : env.getReaderErr with
        | some e => simp [un7Zip, hfn, hes, hlen, hgr]
        | none => simp [un7Zip, hfn, hes, hlen, hgr]
      · simp [un7Zip, hfn, hes, hlen]
  · intro es hes hlen
    simp [un7Zip, hfn, hes, hlen]
  · intro rc hrc
    cases hes : env.entries with
    | error e => simp [un7Zip, hfn, hes] at hrc
    | ok es =>
      by_cases hlen : es.length = 1
      · cases hgr : env.getReaderErr with
        | some e => simp [un7Zip, hfn, hes, hlen, hgr] at hrc
        | none =>
          simp [un7Zip, hfn, hes, hlen, hgr] at hrc
          subst hrc
          simp [runClose]
      · simp [un7Zip, hfn, hes, hlen] at hrc

theorem un7Zip_spec_witness :
    (un7Zip ⟨.ok ["a", "b"], none, none⟩ ⟨.file "/tmp/s", .prim (.close "/tmp/s") none⟩).1 =
      .error (.errNew ("Error entries count differs from one - " ++
        toString (["a", "b"].length) ++ " - for file " ++ "/tmp/s")) ∧
    (un7Zip ⟨.ok ["a", "b"], none, none⟩ ⟨.file "/tmp/s", .prim (.close "/tmp/s") none⟩).2 =
      .close "/tmp/s" :: (runClose (.prim (.close "/tmp/s") none)).2 :=
  (un7Zip_spec ⟨.ok ["a", "b"], none, none⟩ ⟨.file "/tmp/s", .prim (.close "/tmp/s") none⟩
    "/tmp/s" rfl).2.1 ["a", "b"] rfl (by decide)

/-- C9: closing the stream returned by unGZip always closes the gzip decoder
and then the underlying spool handle (the handle is closed even when the
decoder close fails), and the Close call returns the decoder close error
when it is non-nil, otherwise the close/remove error of the underlying
handle. -/
theorem unGZip_close_spec (env : GzEnv) (ri : RC) (h : env.newReaderErr = none) :
    ∃ rc, unGZip env ri = (.ok rc, []) ∧
      runClose rc.close =
        (firstErr env.roCloseErr (runClose ri.close).1,
         .close "gzip reader" :: (runClose ri.close).2) := by
  refine ⟨{ kind := .wrapped,
            close := .seqFirstErr (.prim (.close "gzip reader") env.roCloseErr) ri.close },
    ?_, ?_⟩
  · simp [unGZip, h]
  · simp [runClose]

theorem unGZip_close_spec_witness :
    ∃ rc, unGZip ⟨none, some (.errNew "gzclose")⟩ ⟨.file "/tmp/s", .prim (.close "/tmp/s") none⟩ =
        (.ok rc, []) ∧
      runClose rc.close =
        (firstErr (some (.errNew "gzclose"))
          (runClose (CloseAct.prim (.close "/tmp/s") none)).1,
         .close "gzip reader" :: (runClose (CloseAct.prim (.close "/tmp/s") none)).2) :=
  unGZip_close_spec ⟨none, some (.errNew "gzclose")⟩
    ⟨.file "/tmp/s", .prim (.close "/tmp/s") none⟩ rfl
